import Mathlib

/-!
Shallow embedding of the `vcqj/api` task-list service
(`src/index.ts`, `src/resolvers.ts`): data model, credential
service (token issuance / verification), capability guards, and the
task-store resolvers, with theorems checking the spec's claims.
-/

set_option maxHeartbeats 1000000

namespace Api

/-- `type Role = "USER" | "ADMIN"` (resolvers.ts). -/
inductive Role where
  | USER
  | ADMIN
deriving DecidableEq, Repr

/-- `type User = { username; password; role }` (resolvers.ts). -/
structure User where
  username : String
  password : String
  role : Role
deriving DecidableEq, Repr

/-- `type SafeUser = { username; role }` (resolvers.ts). -/
structure SafeUser where
  username : String
  role : Role
deriving DecidableEq, Repr

/-- `type Todo = { id; text; done; createdAt; createdBy }` (resolvers.ts). -/
structure Todo where
  id : String
  text : String
  done : Bool
  createdAt : String
  createdBy : String
deriving DecidableEq, Repr

/-- `export type GraphQLContext = { user: SafeUser | null }` (index.ts). -/
structure GraphQLContext where
  user : Option SafeUser
deriving DecidableEq, Repr

/-- Error taxonomy: the messages thrown by the resolvers
(`"Not authenticated"`, `"Admin only"`, `"Invalid credentials"`,
`"Not found"`). -/
inductive ApiError where
  | notAuthenticated
  | adminRequired
  | invalidCredentials
  | notFound
deriving DecidableEq, Repr

/-- The JWT payload signed by `createToken` in index.ts:
`{ username, role }` plus the expiry claim added by `expiresIn: "7d"`.
`exp` is a Unix timestamp in seconds. -/
structure JwtPayload where
  username : String
  role : Role
  exp : Nat
deriving DecidableEq, Repr

/-- Abstract model of a JWT string as handed to `jwt.verify`: either a
token produced by `jwt.sign` with some payload and secret, or a string
that is not a well-formed signed token at all. -/
inductive Token where
  | signed (payload : JwtPayload) (secret : String)
  | malformed (s : String)
deriving DecidableEq, Repr

/-- `const JWT_SECRET = process.env.JWT_SECRET || "devsecret-change-me"`
(index.ts), modelled at its default value. -/
def JWT_SECRET : String := "devsecret-change-me"

/-- `expiresIn: "7d"` — seven days in seconds. -/
def sevenDays : Nat := 7 * 24 * 60 * 60

/-- `jwt.sign(payload, secret, { expiresIn: "7d" })`: signs the payload
with the given secret; `exp` is issuance time plus seven days. -/
def jwtSign (username : String) (role : Role) (secret : String)
    (issuedAt : Nat) : Token :=
  Token.signed { username := username, role := role,
                 exp := issuedAt + sevenDays } secret

/-- `jwt.verify(token, secret)` at clock time `now`: succeeds with the
decoded `{username, role}` iff the token was signed with the same secret
and is not yet expired; on bad signature, malformed input or expiry it
fails (returns `none`, modelling the thrown error that callers catch). -/
def jwtVerify (t : Token) (secret : String) (now : Nat) : Option SafeUser :=
  match t with
  | Token.signed p s =>
      if s = secret ∧ now < p.exp then
        some { username := p.username, role := p.role }
      else none
  | Token.malformed _ => none

/-- `createToken(user)` (index.ts lines 66-72): signs
`{ username: user.username, role: user.role }` with `JWT_SECRET`,
expiring seven days after `issuedAt`. -/
def createToken (issuedAt : Nat) (user : User) : Token :=
  jwtSign user.username user.role JWT_SECRET issuedAt

/-- The incoming authorization header, as consumed by `context`
(index.ts lines 112-124): either no usable `Bearer` header, or a
`Bearer <token>` carrying some token string. -/
def contextUser (auth : Option Token) (now : Nat) : GraphQLContext :=
  match auth with
  | some t =>
      match jwtVerify t JWT_SECRET now with
      | some u => { user := some u }
      | none => { user := none }
  | none => { user := none }

/-- The fixed user registry seeded in index.ts lines 50-53. -/
def users : List User :=
  [ { username := "user", password := "password", role := Role.USER },
    { username := "admin", password := "admin", role := Role.ADMIN } ]

/-- `authGuard(ctx)` (resolvers.ts lines 23-25): throws
`"Not authenticated"` when `ctx.user` is absent, otherwise yields the
caller identity. -/
def authGuard (ctx : GraphQLContext) : Except ApiError SafeUser :=
  match ctx.user with
  | none => Except.error ApiError.notAuthenticated
  | some u => Except.ok u

/-- `adminGuard(ctx)` (resolvers.ts lines 26-29): runs `authGuard`
first, then throws `"Admin only"` when the caller's role is not
`ADMIN`. -/
def adminGuard (ctx : GraphQLContext) : Except ApiError SafeUser := do
  let u ← authGuard ctx
  if u.role ≠ Role.ADMIN then Except.error ApiError.adminRequired
  else Except.ok u

/-- `Mutation.login` (resolvers.ts lines 37-53): finds a registry entry
matching both username and password exactly; throws
`"Invalid credentials"` when none matches; otherwise returns the token
built by the injected `createToken` plus the safe user (no password).
The token builder `ct` stands for the injected dependency. -/
def login (users : List User) (ct : User → Token)
    (username password : String) : Except ApiError (Token × SafeUser) :=
  match users.find? (fun u => u.username == username && u.password == password) with
  | none => Except.error ApiError.invalidCredentials
  | some u =>
      Except.ok (ct u, { username := u.username, role := u.role })

/-- `Query.todos` (resolvers.ts line 34): level `none`, no guard; returns
the stored list as-is for any context. -/
def todosQuery (_ctx : GraphQLContext) (todos : List Todo) : List Todo :=
  todos

/-- `Mutation.addTodo` (resolvers.ts lines 55-76): `authGuard`, then
builds the new todo (`done: false`, `createdBy` from the context) and
`unshift`s it onto the front of the list. The generated id and the
timestamp are passed in (`crypto.randomUUID()` / `new Date()`). -/
def addTodo (todos : List Todo) (ctx : GraphQLContext)
    (text newId now : String) : Except ApiError (Todo × List Todo) := do
  let u ← authGuard ctx
  let todo : Todo :=
    { id := newId, text := text, done := false,
      createdAt := now, createdBy := u.username }
  Except.ok (todo, todo :: todos)

/-- In-place `t.done = !!done` on the first list element whose id
matches, as `todos.find` aliases the stored object. -/
def setDoneFirst : List Todo → String → Bool → List Todo
  | [], _, _ => []
  | t :: ts, id, d =>
      if t.id == id then { t with done := d } :: ts
      else t :: setDoneFirst ts id d

/-- `Mutation.toggleTodo` (resolvers.ts lines 78-89): `authGuard`, finds
the first todo with the given id, throws `"Not found"` if absent,
otherwise sets its `done` flag and returns the mutated todo together
with the updated store. -/
def toggleTodo (todos : List Todo) (ctx : GraphQLContext)
    (id : String) (done : Bool) : Except ApiError (Todo × List Todo) := do
  let _ ← authGuard ctx
  match todos.find? (fun t => t.id == id) with
  | none => Except.error ApiError.notFound
  | some t =>
      Except.ok ({ t with done := done }, setDoneFirst todos id done)

/-- `Mutation.deleteTodo` (resolvers.ts lines 91-98): `adminGuard`,
`findIndex` on the id, throws `"Not found"` if absent, otherwise
`splice`s out that single element and returns `true`. -/
def deleteTodo (todos : List Todo) (ctx : GraphQLContext)
    (id : String) : Except ApiError (Bool × List Todo) := do
  let _ ← adminGuard ctx
  match todos.findIdx? (fun t => t.id == id) with
  | none => Except.error ApiError.notFound
  | some i => Except.ok (true, todos.eraseIdx i)

/-- Running one resolver against the store: on success the store is the
returned list, on a thrown error the store is untouched (the resolvers
throw before any mutation). -/
def runStep {α : Type} (todos : List Todo)
    (op : List Todo → Except ApiError (α × List Todo)) :
    Except ApiError α × List Todo :=
  match op todos with
  | Except.ok (a, l) => (Except.ok a, l)
  | Except.error e => (Except.error e, todos)

/-! ## Helper lemmas on first-match list operations -/

/-- Any list containing a todo with the given id splits at the FIRST
such todo: a prefix with no matching id, the match, and the rest. -/
theorem exists_first_match (l : List Todo) (id : String)
    (h : ∃ t ∈ l, t.id = id) :
    ∃ pre t post, l = pre ++ t :: post ∧ (∀ x ∈ pre, x.id ≠ id) ∧ t.id = id := by
  induction l with
  | nil => simp at h
  | cons a as ih =>
    by_cases ha : a.id = id
    · exact ⟨[], a, as, rfl, by simp, ha⟩
    · have h' : ∃ t ∈ as, t.id = id := by
        obtain ⟨t, ht, hid⟩ := h
        rcases List.mem_cons.mp ht with e | hm
        · subst e; exact absurd hid ha
        · exact ⟨t, hm, hid⟩
      obtain ⟨pre, t, post, heq, hpre, hid⟩ := ih h'
      refine ⟨a :: pre, t, post, by simp [heq], ?_, hid⟩
      intro x hx
      rcases List.mem_cons.mp hx with e | hm
      · subst e; exact ha
      · exact hpre x hm

/-- `find?` on an id returns the first matching todo. -/
theorem find_first_match (pre : List Todo) (t : Todo) (post : List Todo)
    (id : String) (hpre : ∀ x ∈ pre, x.id ≠ id) (ht : t.id = id) :
    (pre ++ t :: post).find? (fun x => x.id == id) = some t := by
  induction pre with
  | nil => simp [List.find?_cons_of_pos, ht]
  | cons a as ih =>
    rw [List.cons_append, List.find?_cons_of_neg]
    · exact ih fun x hx => hpre x (List.mem_cons_of_mem a hx)
    · simp [hpre a (List.mem_cons_self a as)]

/-- `setDoneFirst` rewrites exactly the first matching todo and leaves
every other element (and the order) untouched. -/
theorem setDoneFirst_decomp (pre : List Todo) (t : Todo) (post : List Todo)
    (id : String) (d : Bool)
    (hpre : ∀ x ∈ pre, x.id ≠ id) (ht : t.id = id) :
    setDoneFirst (pre ++ t :: post) id d = pre ++ { t with done := d } :: post := by
  induction pre with
  | nil => simp [setDoneFirst, ht]
  | cons a as ih =>
    rw [List.cons_append, setDoneFirst]
    have ha : (a.id == id) = false := by
      simp [hpre a (List.mem_cons_self a as)]
    rw [ha]
    simp only [Bool.false_eq_true, if_false]
    rw [ih fun x hx => hpre x (List.mem_cons_of_mem a hx)]
    rfl

/-- `findIdx?` on an id returns the index of the first match
(generalised over the accumulator). -/
theorem findIdx_first_match (pre : List Todo) (t : Todo) (post : List Todo)
    (id : String) (hpre : ∀ x ∈ pre, x.id ≠ id) (ht : t.id = id) :
    ∀ i : Nat,
      (pre ++ t :: post).findIdx? (fun x => x.id == id) i
        = some (pre.length + i) := by
  induction pre with
  | nil => intro i; simp [List.findIdx?_cons, ht]
  | cons a as ih =>
    intro i
    rw [List.cons_append, List.findIdx?_cons]
    have ha : (a.id == id) = false := by
      simp [hpre a (List.mem_cons_self a as)]
    rw [ha]
    simp only [Bool.false_eq_true, if_false]
    rw [ih (fun x hx => hpre x (List.mem_cons_of_mem a hx)) (i + 1)]
    congr 1
    simp; omega

/-- Erasing at the index of the splice point removes exactly that
element. -/
theorem eraseIdx_at_split (pre : List Todo) (t : Todo) (post : List Todo) :
    (pre ++ t :: post).eraseIdx pre.length = pre ++ post := by
  induction pre with
  | nil => rfl
  | cons a as ih => simpa using ih

/-! ## Claim theorems -/

/-- C1: the capability gate checks authentication before role: with no
identity `adminGuard` fails with NotAuthenticated (never AdminRequired);
with a USER identity it fails with AdminRequired. -/
theorem adminGuard_auth_before_role :
    (adminGuard { user := none } = Except.error ApiError.notAuthenticated) ∧
    (∀ name : String,
      adminGuard { user := some { username := name, role := Role.USER } }
        = Except.error ApiError.adminRequired) :=
  ⟨rfl, fun _ => rfl⟩

/-- C2: for every user in the fixed registry, verifying a freshly issued
credential (before its 7-day expiry) succeeds and yields exactly the
`{username, role}` pair embedded at issuance. -/
theorem issue_verify_roundtrip (u : User) (_hu : u ∈ users)
    (issuedAt checkAt : Nat) (h : checkAt < issuedAt + sevenDays) :
    jwtVerify (createToken issuedAt u) JWT_SECRET checkAt
      = some { username := u.username, role := u.role } := by
  simp [jwtVerify, createToken, jwtSign, h]

/-- Witness for C2 at the registry's first user, checked 100 seconds
after issuance. -/
theorem issue_verify_roundtrip_witness :
    jwtVerify
      (createToken 0 { username := "user", password := "password", role := Role.USER })
      JWT_SECRET 100
      = some { username := "user", role := Role.USER } :=
  issue_verify_roundtrip
    { username := "user", password := "password", role := Role.USER }
    (by simp [users]) 0 100 (by norm_num [sevenDays])

/-- C9: every task returned by a successful create starts not-done. -/
theorem addTodo_starts_not_done (todos : List Todo) (u : SafeUser)
    (text newId now : String) (t : Todo) (l : List Todo)
    (h : addTodo todos { user := some u } text newId now = Except.ok (t, l)) :
    t.done = false := by
  simp only [addTodo, authGuard, Except.bind, bind] at h
  cases h
  rfl

/-- Witness for C9 on a concrete create. -/
theorem addTodo_starts_not_done_witness :
    ({ id := "i1", text := "x", done := false, createdAt := "t0",
       createdBy := "user" } : Todo).done = false :=
  addTodo_starts_not_done [] { username := "user", role := Role.USER }
    "x" "i1" "t0" _ _ rfl

/-- C5: an authenticated create prepends the new task (with `createdBy`
the caller's username) to the front of the stored order, and the
ungated list query returns the stored order as-is — so the newest task
comes first. -/
theorem addTodo_prepends_and_list_order (todos : List Todo) (u : SafeUser)
    (text newId now : String) (qctx : GraphQLContext) :
    ∃ t : Todo,
      addTodo todos { user := some u } text newId now
        = Except.ok (t, t :: todos) ∧
      t.createdBy = u.username ∧
      todosQuery qctx (t :: todos) = t :: todos :=
  ⟨_, rfl, rfl, rfl⟩

/-- C4: token verification is a total function (it always yields a
context, modelling that the `try/catch` in `context` swallows every
verification error) and on every failure — malformed token, wrong
signing secret, or expiry reached — the caller gets the anonymous
context rather than an error. -/
theorem verify_degrades_to_anonymous (now : Nat) :
    (∀ t : Token, ∃ ctx : GraphQLContext, contextUser (some t) now = ctx) ∧
    (∀ s : String, contextUser (some (Token.malformed s)) now = { user := none }) ∧
    (∀ (p : JwtPayload) (sec : String), sec ≠ JWT_SECRET →
        contextUser (some (Token.signed p sec)) now = { user := none }) ∧
    (∀ (p : JwtPayload) (sec : String), p.exp ≤ now →
        contextUser (some (Token.signed p sec)) now = { user := none }) := by
  refine ⟨fun t => ⟨_, rfl⟩, fun s => rfl, ?_, ?_⟩
  · intro p sec hsec
    simp [contextUser, jwtVerify, hsec]
  · intro p sec hexp
    have : ¬ now < p.exp := Nat.not_lt.mpr hexp
    simp [contextUser, jwtVerify, this]

/-- Witness for C4: a token signed with the wrong secret, and an expired
token, both verify to the anonymous context at time 10. -/
theorem verify_degrades_to_anonymous_witness :
    contextUser
      (some (Token.signed { username := "user", role := Role.USER, exp := 999 } "evil"))
      10 = { user := none } ∧
    contextUser
      (some (Token.signed { username := "user", role := Role.USER, exp := 3 } JWT_SECRET))
      10 = { user := none } :=
  ⟨(verify_degrades_to_anonymous 10).2.2.1
      { username := "user", role := Role.USER, exp := 999 } "evil" (by decide),
   (verify_degrades_to_anonymous 10).2.2.2
      { username := "user", role := Role.USER, exp := 3 } JWT_SECRET (by norm_num)⟩

/-- C3: login succeeds iff some registry entry matches both username and
password exactly; when no entry matches it fails with InvalidCredentials
(so no token is produced); on success it returns the token built from
the matching user plus that user's `{username, role}` — the password
does not appear in the result type at all. -/
theorem login_iff_exact_match (us : List User) (ct : User → Token)
    (username password : String) :
    ((∃ r, login us ct username password = Except.ok r)
       ↔ ∃ u ∈ us, u.username = username ∧ u.password = password) ∧
    ((∀ u ∈ us, ¬(u.username = username ∧ u.password = password)) →
       login us ct username password = Except.error ApiError.invalidCredentials) ∧
    (∀ tok su, login us ct username password = Except.ok (tok, su) →
       ∃ u ∈ us, u.username = username ∧ u.password = password ∧
         tok = ct u ∧ su = { username := u.username, role := u.role }) := by
  refine ⟨⟨?_, ?_⟩, ?_, ?_⟩
  · rintro ⟨r, hr⟩
    unfold login at hr
    cases hfind : us.find? (fun u => u.username == username && u.password == password) with
    | none => rw [hfind] at hr; exact absurd hr (by simp)
    | some u =>
      have hm := List.mem_of_find?_eq_some hfind
      have hp := List.find?_some hfind
      simp only [Bool.and_eq_true, beq_iff_eq] at hp
      exact ⟨u, hm, hp⟩
  · rintro ⟨u, hm, h1, h2⟩
    have hs : (us.find? fun v => v.username == username && v.password == password).isSome := by
      rw [List.find?_isSome]
      exact ⟨u, hm, by simp [h1, h2]⟩
    unfold login
    cases hfind : us.find? (fun v => v.username == username && v.password == password) with
    | none => rw [hfind] at hs; simp at hs
    | some v => exact ⟨_, rfl⟩
  · intro h
    unfold login
    cases hfind : us.find? (fun v => v.username == username && v.password == password) with
    | none => rfl
    | some v =>
      exfalso
      have hm := List.mem_of_find?_eq_some hfind
      have hp := List.find?_some hfind
      simp only [Bool.and_eq_true, beq_iff_eq] at hp
      exact h v hm hp
  · intro tok su hr
    unfold login at hr
    cases hfind : us.find? (fun v => v.username == username && v.password == password) with
    | none => rw [hfind] at hr; exact absurd hr (by simp)
    | some u =>
      rw [hfind] at hr
      have hm := List.mem_of_find?_eq_some hfind
      have hp := List.find?_some hfind
      simp only [Bool.and_eq_true, beq_iff_eq] at hp
      cases hr
      exact ⟨u, hm, hp.1, hp.2, rfl, rfl⟩

/-- Witness for C3 on the fixed registry: `("user","password")` logs in,
`("user","wrong")` is rejected with InvalidCredentials. -/
theorem login_iff_exact_match_witness :
    (∃ r, login users (fun u => createToken 0 u) "user" "password" = Except.ok r) ∧
    login users (fun u => createToken 0 u) "user" "wrong"
      = Except.error ApiError.invalidCredentials :=
  ⟨(login_iff_exact_match users (fun u => createToken 0 u) "user" "password").1.mpr
      ⟨{ username := "user", password := "password", role := Role.USER },
       by simp [users], rfl, rfl⟩,
   (login_iff_exact_match users (fun u => createToken 0 u) "user" "wrong").2.1
      (by intro u hm h; simp [users] at hm
          rcases hm with h1 | h2
          · rw [h1] at h; exact absurd h.2 (by decide)
          · rw [h2] at h; exact absurd h.1 (by decide))⟩

/-- C6: for a present id and any authenticated caller, toggle rewrites
only the `done` flag of the first matching task — its `id`, `text`,
`createdAt`, `createdBy` and every other task are untouched — and
toggling to `true` then to `false` leaves that task with `done = false`. -/
theorem toggleTodo_frame_and_idempotent (todos : List Todo) (u : SafeUser)
    (id : String) (h : ∃ t ∈ todos, t.id = id) :
    ∃ pre t post,
      todos = pre ++ t :: post ∧ (∀ x ∈ pre, x.id ≠ id) ∧ t.id = id ∧
      (∀ d : Bool,
        toggleTodo todos { user := some u } id d
          = Except.ok ({ t with done := d }, pre ++ { t with done := d } :: post)) ∧
      toggleTodo (pre ++ { t with done := true } :: post) { user := some u } id false
        = Except.ok ({ t with done := false }, pre ++ { t with done := false } :: post) := by
  obtain ⟨pre, t, post, heq, hpre, hid⟩ := exists_first_match todos id h
  subst heq
  refine ⟨pre, t, post, rfl, hpre, hid, ?_, ?_⟩
  · intro d
    simp only [toggleTodo, authGuard, bind, Except.bind]
    rw [find_first_match pre t post id hpre hid,
        setDoneFirst_decomp pre t post id d hpre hid]
  · simp only [toggleTodo, authGuard, bind, Except.bind]
    have hid' : ({ t with done := true } : Todo).id = id := hid
    rw [find_first_match pre _ post id hpre hid',
        setDoneFirst_decomp pre _ post id false hpre hid']

/-- Witness for C6 on a one-task store. -/
theorem toggleTodo_frame_and_idempotent_witness :
    ∃ pre t post,
      ([⟨"a", "task", false, "t0", "system"⟩] : List Todo) = pre ++ t :: post ∧
      (∀ x ∈ pre, x.id ≠ "a") ∧ t.id = "a" ∧
      (∀ d : Bool,
        toggleTodo [⟨"a", "task", false, "t0", "system"⟩]
            { user := some ⟨"user", Role.USER⟩ } "a" d
          = Except.ok ({ t with done := d }, pre ++ { t with done := d } :: post)) ∧
      toggleTodo (pre ++ { t with done := true } :: post)
          { user := some ⟨"user", Role.USER⟩ } "a" false
        = Except.ok ({ t with done := false }, pre ++ { t with done := false } :: post) :=
  toggleTodo_frame_and_idempotent [⟨"a", "task", false, "t0", "system"⟩]
    ⟨"user", Role.USER⟩ "a" ⟨⟨"a", "task", false, "t0", "system"⟩, by simp, rfl⟩

/-- C7: for an id absent from the store, an authenticated toggle and an
admin delete both fail with NotFound, and the failing operation leaves
the task list unchanged. -/
theorem absent_id_not_found (todos : List Todo) (u a : SafeUser)
    (id : String) (d : Bool)
    (h : ∀ t ∈ todos, t.id ≠ id) (ha : a.role = Role.ADMIN) :
    toggleTodo todos { user := some u } id d = Except.error ApiError.notFound ∧
    deleteTodo todos { user := some a } id = Except.error ApiError.notFound ∧
    (runStep todos (fun l => toggleTodo l { user := some u } id d)).2 = todos ∧
    (runStep todos (fun l => deleteTodo l { user := some a } id)).2 = todos := by
  have hfind : todos.find? (fun t => t.id == id) = none := by
    rw [List.find?_eq_none]
    intro x hx
    simp [h x hx]
  have hfi : todos.findIdx? (fun t => t.id == id) = none := by
    rw [List.findIdx?_eq_none_iff]
    intro x hx
    simp [h x hx]
  have h1 : toggleTodo todos { user := some u } id d
      = Except.error ApiError.notFound := by
    simp only [toggleTodo, authGuard, bind, Except.bind]
    rw [hfind]
  have h2 : deleteTodo todos { user := some a } id
      = Except.error ApiError.notFound := by
    simp only [deleteTodo, adminGuard, authGuard, bind, Except.bind, ha]
    rw [if_neg (by simp), hfi]
  exact ⟨h1, h2, by simp [runStep, h1], by simp [runStep, h2]⟩

/-- Witness for C7: unknown id `"zz"` against a one-task store. -/
theorem absent_id_not_found_witness :
    toggleTodo [⟨"a", "task", false, "t0", "system"⟩]
        { user := some ⟨"user", Role.USER⟩ } "zz" true
      = Except.error ApiError.notFound ∧
    deleteTodo [⟨"a", "task", false, "t0", "system"⟩]
        { user := some ⟨"admin", Role.ADMIN⟩ } "zz"
      = Except.error ApiError.notFound ∧
    (runStep [⟨"a", "task", false, "t0", "system"⟩]
        (fun l => toggleTodo l { user := some ⟨"user", Role.USER⟩ } "zz" true)).2
      = [⟨"a", "task", false, "t0", "system"⟩] ∧
    (runStep [⟨"a", "task", false, "t0", "system"⟩]
        (fun l => deleteTodo l { user := some ⟨"admin", Role.ADMIN⟩ } "zz")).2
      = [⟨"a", "task", false, "t0", "system"⟩] :=
  absent_id_not_found [⟨"a", "task", false, "t0", "system"⟩]
    ⟨"user", Role.USER⟩ ⟨"admin", Role.ADMIN⟩ "zz" true
    (by intro t ht; simp at ht; rw [ht]; decide) rfl

/-- C8: a failed gate check aborts with zero side effects: an anonymous
create fails with NotAuthenticated and appends nothing, and a
non-admin delete of an existing id fails with AdminRequired and leaves
the task present. -/
theorem gate_failure_no_side_effects (todos : List Todo)
    (text newId now id : String) (u : SafeUser)
    (hrole : u.role = Role.USER) (h : ∃ t ∈ todos, t.id = id) :
    addTodo todos { user := none } text newId now
      = Except.error ApiError.notAuthenticated ∧
    (runStep todos (fun l => addTodo l { user := none } text newId now)).2
      = todos ∧
    deleteTodo todos { user := some u } id
      = Except.error ApiError.adminRequired ∧
    (runStep todos (fun l => deleteTodo l { user := some u } id)).2 = todos ∧
    ∃ t ∈ (runStep todos (fun l => deleteTodo l { user := some u } id)).2,
      t.id = id := by
  have hadd : addTodo todos { user := none } text newId now
      = Except.error ApiError.notAuthenticated := rfl
  have hdel : deleteTodo todos { user := some u } id
      = Except.error ApiError.adminRequired := by
    simp only [deleteTodo, adminGuard, authGuard, bind, Except.bind, hrole]
    rw [if_pos (by simp)]
  refine ⟨hadd, by simp [runStep, hadd], hdel, by simp [runStep, hdel], ?_⟩
  rw [show (runStep todos (fun l => deleteTodo l { user := some u } id)).2
        = todos by simp [runStep, hdel]]
  exact h

/-- Witness for C8: anonymous create and a USER-role delete against a
one-task store. -/
theorem gate_failure_no_side_effects_witness :
    addTodo [⟨"a", "task", false, "t0", "system"⟩] { user := none } "x" "i1" "t1"
      = Except.error ApiError.notAuthenticated ∧
    (runStep [⟨"a", "task", false, "t0", "system"⟩]
        (fun l => addTodo l { user := none } "x" "i1" "t1")).2
      = [⟨"a", "task", false, "t0", "system"⟩] ∧
    deleteTodo [⟨"a", "task", false, "t0", "system"⟩]
        { user := some ⟨"user", Role.USER⟩ } "a"
      = Except.error ApiError.adminRequired ∧
    (runStep [⟨"a", "task", false, "t0", "system"⟩]
        (fun l => deleteTodo l { user := some ⟨"user", Role.USER⟩ } "a")).2
      = [⟨"a", "task", false, "t0", "system"⟩] ∧
    ∃ t ∈ (runStep [⟨"a", "task", false, "t0", "system"⟩]
        (fun l => deleteTodo l { user := some ⟨"user", Role.USER⟩ } "a")).2,
      t.id = "a" :=
  gate_failure_no_side_effects [⟨"a", "task", false, "t0", "system"⟩]
    "x" "i1" "t1" "a" ⟨"user", Role.USER⟩ rfl
    ⟨⟨"a", "task", false, "t0", "system"⟩, by simp, rfl⟩

/-- C10: a successful admin delete removes exactly the first task whose
id matches, returns `true`, and every other task is kept unchanged in
its relative order. -/
theorem deleteTodo_removes_first_match (todos : List Todo) (a : SafeUser)
    (id : String) (ha : a.role = Role.ADMIN) (h : ∃ t ∈ todos, t.id = id) :
    ∃ pre t post,
      todos = pre ++ t :: post ∧ (∀ x ∈ pre, x.id ≠ id) ∧ t.id = id ∧
      deleteTodo todos { user := some a } id = Except.ok (true, pre ++ post) := by
  obtain ⟨pre, t, post, heq, hpre, hid⟩ := exists_first_match todos id h
  subst heq
  refine ⟨pre, t, post, rfl, hpre, hid, ?_⟩
  simp only [deleteTodo, adminGuard, authGuard, bind, Except.bind, ha]
  rw [if_neg (by simp), findIdx_first_match pre t post id hpre hid 0]
  simp only [Nat.add_zero]
  rw [eraseIdx_at_split]

/-- Witness for C10 on a two-task store: the matching head is removed,
the other task survives. -/
theorem deleteTodo_removes_first_match_witness :
    ∃ pre t post,
      ([⟨"a", "task", false, "t0", "system"⟩,
        ⟨"b", "other", true, "t1", "user"⟩] : List Todo) = pre ++ t :: post ∧
      (∀ x ∈ pre, x.id ≠ "a") ∧ t.id = "a" ∧
      deleteTodo [⟨"a", "task", false, "t0", "system"⟩,
                  ⟨"b", "other", true, "t1", "user"⟩]
          { user := some ⟨"admin", Role.ADMIN⟩ } "a"
        = Except.ok (true, pre ++ post) :=
  deleteTodo_removes_first_match
    [⟨"a", "task", false, "t0", "system"⟩, ⟨"b", "other", true, "t1", "user"⟩]
    ⟨"admin", Role.ADMIN⟩ "a" rfl
    ⟨⟨"a", "task", false, "t0", "system"⟩, by simp, rfl⟩

end Api
